import Mathlib

/-!
Verification of the PyLCP HTTP MAC Access Authentication engine against its
specification.  The module under test is `lcp/mac.py`; its behaviour is pinned
by `src/tests/test_mac.py`.  Since `lcp/mac.py` itself is not present under
`src/`, the protocol functions below are modelled from the spec (sections 4.2
to 4.7), with every point the spec leaves open resolved the way the unit tests
demand.  `pylcp/crud/postings.py` is present under `src/` and is embedded
directly.  Bytes are `Nat` values below 256; fallible operations return
`Option` or `Except`.
-/

/-- The error kinds raised by the protocol engine (`InvalidAuthHeader`,
`InvalidTimeStamp`, `InvalidSignature` from section 7 of the spec), plus the
Python-level errors that the modelled library code can raise
(`Base64DecodingError` from keyczar, `ValueError` from `int()`,
`TypeError` from keyword-argument binding). -/
inductive MacError where
  | invalidAuthHeader
  | invalidTimeStamp
  | invalidSignature
  | base64DecodingError
  | valueError
  | typeError
deriving DecidableEq, Repr

/-! ## Base64: standard encoding (signing side) and web-safe decoding
(verification side)

Modelled from the spec: `lcp/mac.py` is absent from `src/`.  The signing side
uses the Python function `base64.b64encode` (standard alphabet, `=` padding); the
verification side uses `keyczar.util.Base64WSDecode`, which strips whitespace,
re-pads to a multiple of four, and decodes with the URL-safe alphabet on top
of the Python decoder, which accepts `+`/`/` as well as `-`/`_`. -/

/-- The standard base64 alphabet, as used by `base64.b64encode`. -/
def stdChar (n : Nat) : Char :=
  "ABCDEFGHIJKLMNOPQRSTUVWXYZabcdefghijklmnopqrstuvwxyz0123456789+/".data.getD n 'A'

/-- Decoding table of `Base64WSDecode`: the URL-safe alphabet, which on top of
the Python `urlsafe_b64decode` also tolerates the standard `+` and `/`. -/
def decVal (c : Char) : Option Nat :=
  if 'A' ≤ c ∧ c ≤ 'Z' then some (c.toNat - 'A'.toNat)
  else if 'a' ≤ c ∧ c ≤ 'z' then some (c.toNat - 'a'.toNat + 26)
  else if '0' ≤ c ∧ c ≤ '9' then some (c.toNat - '0'.toNat + 52)
  else if c = '+' ∨ c = '-' then some 62
  else if c = '/' ∨ c = '_' then some 63
  else none

/-- Standard base64 of a byte list, three bytes at a time, with `=` padding:
the body of the Python function `base64.b64encode`. -/
def b64encodeChunks : List Nat → List Char
  | [] => []
  | [a] => [stdChar (a / 4), stdChar (a % 4 * 16), '=', '=']
  | [a, b] => [stdChar (a / 4), stdChar (a % 4 * 16 + b / 16), stdChar (b % 16 * 4), '=']
  | a :: b :: c :: rest =>
      stdChar (a / 4) :: stdChar (a % 4 * 16 + b / 16) :: stdChar (b % 16 * 4 + c / 64) ::
        stdChar (c % 64) :: b64encodeChunks rest

/-- Python `base64.b64encode` on a byte list, as a string. -/
def b64encode (bytes : List Nat) : String :=
  ⟨b64encodeChunks bytes⟩

/-- Base64 decoding of a padded character list, four characters at a time.
`=` is accepted only as final-group padding; any character outside the
decoding table fails. -/
def b64decodeChunks : List Char → Option (List Nat)
  | [] => some []
  | c1 :: c2 :: c3 :: c4 :: rest =>
      match decVal c1, decVal c2 with
      | some v1, some v2 =>
          if c3 = '=' then
            if c4 = '=' ∧ rest = [] then some [v1 * 4 + v2 / 16] else none
          else
            match decVal c3 with
            | some v3 =>
                if c4 = '=' then
                  if rest = [] then some [v1 * 4 + v2 / 16, v2 % 16 * 16 + v3 / 4] else none
                else
                  match decVal c4 with
                  | some v4 =>
                      match b64decodeChunks rest with
                      | some bs =>
                          some ((v1 * 4 + v2 / 16) :: (v2 % 16 * 16 + v3 / 4) ::
                            (v3 % 4 * 64 + v4) :: bs)
                      | none => none
                  | none => none
            | none => none
      | _, _ => none
  | _ => none

/-- Modelled from the spec: `keyczar.util.Base64WSDecode` (the verification
side wire decoder, named by `test_mac.py`).  It removes line breaks and
spaces, rejects inputs of length 1 mod 4, pads with `=` to a multiple of
four, and decodes with the web-safe-tolerant table. -/
def Base64WSDecode (s : String) : Option (List Nat) :=
  let cleaned := s.data.filter fun c => ¬(c = ' ' ∨ c = '\n' ∨ c = '\r')
  let d := cleaned.length % 4
  if d = 1 then none
  else b64decodeChunks (cleaned ++ List.replicate ((4 - d) % 4) '=')

/-- Modelled from the spec: `generate_signature(mac_key,
normalized_request_string)` of `lcp/mac.py` (absent from `src/`).  The HMAC
provider (`keyczar.keys.HmacKey(...).Sign`) is an external capability, passed
in as `macSign`; the raw MAC bytes are rendered with standard base64, as the
test pins via `base64.b64encode`. -/
def generate_signature (macSign : String → String → List Nat)
    (mac_key normalized_request_string : String) : String :=
  b64encode (macSign mac_key normalized_request_string)

/-- Modelled from the spec: `verify_signature(signature, shared_secret,
normalized_request_string)` of `lcp/mac.py` (absent from `src/`).  It decodes
the signature with `keyczar.util.Base64WSDecode`, recomputes the MAC over the
normalized string and compares; a mismatch raises `InvalidSignature`. -/
def verify_signature (macSign : String → String → List Nat)
    (signature shared_secret normalized_request_string : String) :
    Except MacError Unit :=
  match Base64WSDecode signature with
  | none => .error .base64DecodingError
  | some decoded =>
      if macSign shared_secret normalized_request_string = decoded then .ok ()
      else .error .invalidSignature

lemma decVal_stdChar_fin : ∀ v : Fin 64, decVal (stdChar v.val) = some v.val := by decide

lemma decVal_stdChar (v : Nat) (h : v < 64) : decVal (stdChar v) = some v :=
  decVal_stdChar_fin ⟨v, h⟩

lemma stdChar_ne_ws_fin :
    ∀ v : Fin 64, ¬(stdChar v.val = ' ' ∨ stdChar v.val = '\n' ∨ stdChar v.val = '\r') ∧
      stdChar v.val ≠ '=' := by decide

lemma stdChar_not_ws (n : Nat) :
    ¬(stdChar n = ' ' ∨ stdChar n = '\n' ∨ stdChar n = '\r') := by
  by_cases hn : n < 64
  · exact (stdChar_ne_ws_fin ⟨n, hn⟩).1
  · have hlen :
        "ABCDEFGHIJKLMNOPQRSTUVWXYZabcdefghijklmnopqrstuvwxyz0123456789+/".data.length = 64 :=
      rfl
    have : stdChar n = 'A' := by
      unfold stdChar
      apply List.getD_eq_default
      omega
    rw [this]
    decide

lemma stdChar_ne_pad (n : Nat) (h : n < 64) : stdChar n ≠ '=' :=
  (stdChar_ne_ws_fin ⟨n, h⟩).2

lemma b64encodeChunks_length_mod (l : List Nat) : (b64encodeChunks l).length % 4 = 0 := by
  induction l using b64encodeChunks.induct <;> (simp [b64encodeChunks, *]; try omega)

lemma b64encodeChunks_not_ws (l : List Nat) :
    ∀ c ∈ b64encodeChunks l, ¬(c = ' ' ∨ c = '\n' ∨ c = '\r') := by
  induction l using b64encodeChunks.induct with
  | case1 => simp [b64encodeChunks]
  | case2 a =>
      intro c hc
      simp only [b64encodeChunks, List.mem_cons, List.not_mem_nil, or_false] at hc
      rcases hc with h | h | h | h <;> subst h <;> first | exact stdChar_not_ws _ | decide
  | case3 a b =>
      intro c hc
      simp only [b64encodeChunks, List.mem_cons, List.not_mem_nil, or_false] at hc
      rcases hc with h | h | h | h <;> subst h <;> first | exact stdChar_not_ws _ | decide
  | case4 a b cc rest ih =>
      intro c hc
      simp only [b64encodeChunks, List.mem_cons] at hc
      rcases hc with h | h | h | h | h
      · subst h; exact stdChar_not_ws _
      · subst h; exact stdChar_not_ws _
      · subst h; exact stdChar_not_ws _
      · subst h; exact stdChar_not_ws _
      · exact ih c h

lemma b64decode_encode (l : List Nat) :
    (∀ b ∈ l, b < 256) → b64decodeChunks (b64encodeChunks l) = some l := by
  induction l using b64encodeChunks.induct with
  | case1 => intro _; rfl
  | case2 a =>
      intro hl
      have ha : a < 256 := hl a (by simp)
      have h1 : a / 4 < 64 := by omega
      have h2 : a % 4 * 16 < 64 := by omega
      simp [b64encodeChunks, b64decodeChunks, decVal_stdChar _ h1, decVal_stdChar _ h2]
      omega
  | case3 a b =>
      intro hl
      have ha : a < 256 := hl a (by simp)
      have hb : b < 256 := hl b (by simp)
      have h1 : a / 4 < 64 := by omega
      have h2 : a % 4 * 16 + b / 16 < 64 := by omega
      have h3 : b % 16 * 4 < 64 := by omega
      simp [b64encodeChunks, b64decodeChunks, decVal_stdChar _ h1, decVal_stdChar _ h2,
        decVal_stdChar _ h3, stdChar_ne_pad _ h3]
      constructor <;> omega
  | case4 a b c rest ih =>
      intro hl
      have ha : a < 256 := hl a (by simp)
      have hb : b < 256 := hl b (by simp)
      have hc : c < 256 := hl c (by simp)
      have h1 : a / 4 < 64 := by omega
      have h2 : a % 4 * 16 + b / 16 < 64 := by omega
      have h3 : b % 16 * 4 + c / 64 < 64 := by omega
      have h4 : c % 64 < 64 := by omega
      have hrest : ∀ x ∈ rest, x < 256 := fun x hx => hl x (by simp [hx])
      simp [b64encodeChunks, b64decodeChunks, decVal_stdChar _ h1, decVal_stdChar _ h2,
        decVal_stdChar _ h3, decVal_stdChar _ h4, stdChar_ne_pad _ h3, stdChar_ne_pad _ h4,
        ih hrest]
      refine ⟨by omega, by omega, by omega⟩

lemma Base64WSDecode_b64encode (bytes : List Nat) (hb : ∀ b ∈ bytes, b < 256) :
    Base64WSDecode (b64encode bytes) = some bytes := by
  unfold Base64WSDecode b64encode
  have hfilter :
      (b64encodeChunks bytes).filter (fun c => decide ¬(c = ' ' ∨ c = '\n' ∨ c = '\r')) =
        b64encodeChunks bytes := by
    apply List.filter_eq_self.mpr
    intro c hc
    simpa using b64encodeChunks_not_ws bytes c hc
  simp only [hfilter, b64encodeChunks_length_mod]
  norm_num
  exact b64decode_encode bytes hb

/-- Claim C1: for every MAC provider producing byte output, every secret and
every normalized request string, signing with `generate_signature` (standard
base64 encoding) and then checking with `verify_signature` (web-safe base64
decoding) succeeds without `InvalidSignature`. -/
theorem sign_verify_roundtrip (macSign : String → String → List Nat)
    (secret nrs : String) (h : ∀ b ∈ macSign secret nrs, b < 256) :
    verify_signature macSign (generate_signature macSign secret nrs) secret nrs =
      .ok () := by
  unfold verify_signature generate_signature
  rw [Base64WSDecode_b64encode _ h]
  simp

/-- Witness for C1 at a concrete MAC function whose output exercises the
`/`-heavy end of the standard alphabet. -/
theorem sign_verify_roundtrip_witness :
    (∀ b ∈ (fun (_ _ : String) => [255, 255, 255, 100]) "secret" "a\nb\n", b < 256) ∧
      verify_signature (fun _ _ => [255, 255, 255, 100])
        (generate_signature (fun _ _ => [255, 255, 255, 100]) "secret" "a\nb\n")
        "secret" "a\nb\n" = .ok () :=
  ⟨by decide, sign_verify_roundtrip (fun _ _ => [255, 255, 255, 100]) "secret" "a\nb\n"
    (by decide)⟩

/-! ## AuthHeaderValue: serialization and strict parsing

Modelled from the spec (section 4.6): `lcp/mac.py` is absent from `src/`.
`to_text` renders the five double-quoted fields after the literal `MAC`
scheme token; `parse` is a strict-format extraction via the same shape,
failing with `InvalidAuthHeader` on absent input, a shape mismatch, or an
empty captured field. -/

/-- The five ordered protocol parameters of the authorization header. -/
structure AuthHeaderValue where
  mac_key_identifier : String
  ts : String
  nonce : String
  ext : String
  mac : String
deriving DecidableEq, Repr

/-- The rendering `AuthHeaderValue.__str__`: produces
`MAC id="<id>", ts="<ts>", nonce="<nonce>", ext="<ext>", mac="<mac>"`. -/
def AuthHeaderValue.to_text (v : AuthHeaderValue) : String :=
  "MAC id=\"" ++ v.mac_key_identifier ++ "\", ts=\"" ++ v.ts ++ "\", nonce=\"" ++
    v.nonce ++ "\", ext=\"" ++ v.ext ++ "\", mac=\"" ++ v.mac ++ "\""

/-- Consume an exact literal prefix, returning the remainder. -/
def expectLit : List Char → List Char → Option (List Char)
  | [], cs => some cs
  | _ :: _, [] => none
  | l :: ls, c :: cs => if c = l then expectLit ls cs else none

/-- Capture a quoted field: the characters up to (and consuming) the next
`"`. -/
def readField : List Char → Option (List Char × List Char)
  | [] => none
  | c :: rest =>
      if c = '"' then some ([], rest)
      else
        match readField rest with
        | some (f, r) => some (c :: f, r)
        | none => none

/-- Shape-level extraction of the five fields: the strict format of
`AuthHeaderValue.parse` before the non-emptiness checks. -/
def parseCore (cs : List Char) : Option AuthHeaderValue :=
  (expectLit ("MAC id=\"".data) cs).bind fun r0 =>
  (readField r0).bind fun p1 =>
  (expectLit (", ts=\"".data) p1.2).bind fun r2 =>
  (readField r2).bind fun p2 =>
  (expectLit (", nonce=\"".data) p2.2).bind fun r4 =>
  (readField r4).bind fun p3 =>
  (expectLit (", ext=\"".data) p3.2).bind fun r6 =>
  (readField r6).bind fun p4 =>
  (expectLit (", mac=\"".data) p4.2).bind fun r8 =>
  (readField r8).bind fun p5 =>
  if p5.2 = [] then some ⟨⟨p1.1⟩, ⟨p2.1⟩, ⟨p3.1⟩, ⟨p4.1⟩, ⟨p5.1⟩⟩ else none

/-- Modelled from the spec: `AuthHeaderValue.parse` of `lcp/mac.py` (absent
from `src/`).  Absent input (`None`), a shape mismatch, and an empty captured
field all raise `InvalidAuthHeader`. -/
def AuthHeaderValue.parse (input : Option String) : Except MacError AuthHeaderValue :=
  match input with
  | none => .error .invalidAuthHeader
  | some s =>
      match parseCore s.data with
      | none => .error .invalidAuthHeader
      | some v =>
          if v.mac_key_identifier = "" ∨ v.ts = "" ∨ v.nonce = "" ∨ v.ext = "" ∨ v.mac = ""
          then .error .invalidAuthHeader
          else .ok v

/-- A field is representable inside the double-quoted wire format exactly
when it contains no `"` character. -/
def noQuote (s : String) : Prop := '"' ∉ s.data

instance (s : String) : Decidable (noQuote s) :=
  inferInstanceAs (Decidable ('"' ∉ s.data))

/-- All five fields of a header value are quote-free. -/
def quoteFreeFields (v : AuthHeaderValue) : Prop :=
  noQuote v.mac_key_identifier ∧ noQuote v.ts ∧ noQuote v.nonce ∧ noQuote v.ext ∧
    noQuote v.mac

/-- All five fields of a header value are non-empty (section 3 of the spec
invariant). -/
def fieldsNonempty (v : AuthHeaderValue) : Prop :=
  v.mac_key_identifier ≠ "" ∧ v.ts ≠ "" ∧ v.nonce ≠ "" ∧ v.ext ≠ "" ∧ v.mac ≠ ""

lemma string_eq_of_data (s t : String) (h : s.data = t.data) : s = t := by
  cases s; cases t; exact congrArg String.mk h

lemma expectLit_refl (l r : List Char) : expectLit l (l ++ r) = some r := by
  induction l with
  | nil => rfl
  | cons x xs ih => simp [expectLit, ih]

lemma expectLit_sound (l : List Char) :
    ∀ cs r, expectLit l cs = some r → cs = l ++ r := by
  induction l with
  | nil =>
      intro cs r h
      simp only [expectLit] at h
      simp [← Option.some_inj.mp h]
  | cons x xs ih =>
      intro cs r h
      cases cs with
      | nil => simp [expectLit] at h
      | cons c cs2 =>
          by_cases hc : c = x
          · subst hc
            simp only [expectLit, if_pos rfl] at h
            simpa using ih cs2 r h
          · simp [expectLit, hc] at h

lemma readField_complete (f r : List Char) (hf : '"' ∉ f) :
    readField (f ++ '"' :: r) = some (f, r) := by
  induction f with
  | nil => simp [readField]
  | cons c f2 ih =>
      have hc : c ≠ '"' := fun h => hf (by simp [h])
      have hf2 : '"' ∉ f2 := fun h => hf (by simp [h])
      simp [readField, hc, ih hf2]

lemma readField_sound :
    ∀ cs f r, readField cs = some (f, r) → cs = f ++ '"' :: r ∧ '"' ∉ f := by
  intro cs
  induction cs with
  | nil => intro f r h; simp [readField] at h
  | cons c rest ih =>
      intro f r h
      by_cases hc : c = '"'
      · subst hc
        simp only [readField, if_pos rfl, Option.some_inj, Prod.mk.injEq] at h
        obtain ⟨rfl, rfl⟩ := h
        simp
      · cases hrec : readField rest with
        | none => simp [readField, hc, hrec] at h
        | some p =>
            obtain ⟨pf, pr⟩ := p
            simp only [readField, if_neg hc, hrec, Option.some_inj, Prod.mk.injEq] at h
            obtain ⟨rfl, rfl⟩ := h
            obtain ⟨hp, hv⟩ := ih pf pr (by rw [hrec])
            refine ⟨by simp [hp], ?_⟩
            simp only [List.mem_cons, not_or]
            exact ⟨fun hq => hc hq.symm, hv⟩

lemma to_text_data (v : AuthHeaderValue) :
    v.to_text.data =
      "MAC id=\"".data ++ (v.mac_key_identifier.data ++ '"' :: (", ts=\"".data ++
        (v.ts.data ++ '"' :: (", nonce=\"".data ++ (v.nonce.data ++ '"' :: (", ext=\"".data ++
          (v.ext.data ++ '"' :: (", mac=\"".data ++ (v.mac.data ++ ['"'])))))))))  := by
  have e1 : ("\", ts=\"" : String).data = '"' :: (", ts=\"" : String).data := rfl
  have e2 : ("\", nonce=\"" : String).data = '"' :: (", nonce=\"" : String).data := rfl
  have e3 : ("\", ext=\"" : String).data = '"' :: (", ext=\"" : String).data := rfl
  have e4 : ("\", mac=\"" : String).data = '"' :: (", mac=\"" : String).data := rfl
  have e5 : ("\"" : String).data = ['"'] := rfl
  simp only [AuthHeaderValue.to_text, String.data_append, e1, e2, e3, e4, e5,
    List.append_assoc, List.cons_append]

lemma parseCore_complete (v : AuthHeaderValue) (hq : quoteFreeFields v) :
    parseCore v.to_text.data = some v := by
  obtain ⟨h1, h2, h3, h4, h5⟩ := hq
  rw [to_text_data]
  simp only [parseCore, expectLit_refl, readField_complete _ _ h1,
    readField_complete _ _ h2, readField_complete _ _ h3, readField_complete _ _ h4,
    readField_complete _ _ h5, Option.some_bind]
  rfl

lemma parseCore_sound (cs : List Char) (v : AuthHeaderValue)
    (h : parseCore cs = some v) : cs = v.to_text.data ∧ quoteFreeFields v := by
  simp only [parseCore, Option.bind_eq_some] at h
  obtain ⟨r0, h0, p1, hp1, r2, hs2, p2, hp2, r4, hs3, p3, hp3, r6, hs4, p4, hp4, r8, hs5,
    p5, hp5, hfin⟩ := h
  obtain ⟨f1, r1⟩ := p1
  obtain ⟨f2, r3⟩ := p2
  obtain ⟨f3, r5⟩ := p3
  obtain ⟨f4, r7⟩ := p4
  obtain ⟨f5, r9⟩ := p5
  by_cases hend : r9 = []
  · rw [if_pos hend] at hfin
    have hv := Option.some_inj.mp hfin
    subst hv
    subst hend
    obtain ⟨e0, q1⟩ := readField_sound r0 f1 r1 hp1
    obtain ⟨e2, q2⟩ := readField_sound r2 f2 r3 hp2
    obtain ⟨e4, q3⟩ := readField_sound r4 f3 r5 hp3
    obtain ⟨e6, q4⟩ := readField_sound r6 f4 r7 hp4
    obtain ⟨e8, q5⟩ := readField_sound r8 f5 [] hp5
    have d0 := expectLit_sound _ _ _ h0
    have d2 := expectLit_sound _ _ _ hs2
    have d4 := expectLit_sound _ _ _ hs3
    have d6 := expectLit_sound _ _ _ hs4
    have d8 := expectLit_sound _ _ _ hs5
    constructor
    · rw [to_text_data]
      subst d0 e0 d2 e2 d4 e4 d6 e6 d8 e8
      simp
    · exact ⟨q1, q2, q3, q4, q5⟩
  · rw [if_neg hend] at hfin
    cases hfin

/-- Claim C2: `AuthHeaderValue.parse` raises `InvalidAuthHeader` exactly when the
input is absent, empty, does not match the header shape, or any of the five
captured fields is empty — equivalently, exactly when the input is not the
rendering of a header value with five non-empty quote-free fields.  In
particular a well-shaped header whose `ext` field is empty is rejected, as are
`None`, `""` and `"foo"`. -/
theorem parse_error_characterization :
    (∀ input : Option String,
      AuthHeaderValue.parse input = .error .invalidAuthHeader ↔
        ¬∃ v : AuthHeaderValue, quoteFreeFields v ∧ fieldsNonempty v ∧
          input = some v.to_text) ∧
    (∀ f1 f2 f3 f5 : String, noQuote f1 → noQuote f2 → noQuote f3 → noQuote f5 →
      AuthHeaderValue.parse (some (AuthHeaderValue.to_text ⟨f1, f2, f3, "", f5⟩)) =
        .error .invalidAuthHeader) ∧
    AuthHeaderValue.parse none = .error .invalidAuthHeader ∧
    AuthHeaderValue.parse (some "") = .error .invalidAuthHeader ∧
    AuthHeaderValue.parse (some "foo") = .error .invalidAuthHeader := by
  have hqe : noQuote "" := by decide
  refine ⟨?_, ?_, rfl, rfl, rfl⟩
  · intro input
    constructor
    · rintro herr ⟨v, hq, hne, rfl⟩
      obtain ⟨n1, n2, n3, n4, n5⟩ := hne
      simp [AuthHeaderValue.parse, parseCore_complete v hq, n1, n2, n3, n4, n5] at herr
    · intro hnex
      match input with
      | none => rfl
      | some s =>
          cases hpc : parseCore s.data with
          | none => simp [AuthHeaderValue.parse, hpc]
          | some v =>
              by_cases hemp :
                  v.mac_key_identifier = "" ∨ v.ts = "" ∨ v.nonce = "" ∨ v.ext = "" ∨
                    v.mac = ""
              · simp [AuthHeaderValue.parse, hpc, hemp]
              · exfalso
                obtain ⟨hdata, hq⟩ := parseCore_sound s.data v hpc
                refine hnex ⟨v, hq, ?_, ?_⟩
                · push_neg at hemp
                  exact ⟨hemp.1, hemp.2.1, hemp.2.2.1, hemp.2.2.2.1, hemp.2.2.2.2⟩
                · rw [string_eq_of_data s v.to_text hdata]
  · intro f1 f2 f3 f5 h1 h2 h3 h5
    have hcomp := parseCore_complete ⟨f1, f2, f3, "", f5⟩ ⟨h1, h2, h3, hqe, h5⟩
    simp [AuthHeaderValue.parse, hcomp]

/-- Witness for C2 at concrete fields, exercising the empty-`ext` rejection. -/
theorem parse_error_characterization_witness :
    AuthHeaderValue.parse (some (AuthHeaderValue.to_text ⟨"A", "42", "N", "", "M"⟩)) =
      .error .invalidAuthHeader :=
  parse_error_characterization.2.1 "A" "42" "N" "M" (by decide) (by decide) (by decide)
    (by decide)

/-- Claim C6, counterexample: the round trip fails, as stated, for a value whose
fields are all non-empty but whose key identifier contains a double quote:
parsing its serialization raises instead of returning the value back. -/
theorem to_text_parse_roundtrip_counterexample :
    fieldsNonempty ⟨"A\"B", "42", "N", "E", "M"⟩ ∧
      AuthHeaderValue.parse (some (AuthHeaderValue.to_text ⟨"A\"B", "42", "N", "E", "M"⟩)) ≠
        Except.ok ⟨"A\"B", "42", "N", "E", "M"⟩ := by
  refine ⟨⟨by decide, by decide, by decide, by decide, by decide⟩, ?_⟩
  have h : AuthHeaderValue.parse (some (AuthHeaderValue.to_text ⟨"A\"B", "42", "N", "E", "M"⟩)) =
      .error .invalidAuthHeader := rfl
  rw [h]
  simp

/-- Claim C6, amended: serializing with `to_text` and then parsing returns the
original five fields, for every header value whose fields are non-empty and
contain no double-quote character. -/
theorem to_text_parse_roundtrip (v : AuthHeaderValue) (hne : fieldsNonempty v)
    (hq : quoteFreeFields v) :
    AuthHeaderValue.parse (some v.to_text) = .ok v := by
  obtain ⟨n1, n2, n3, n4, n5⟩ := hne
  simp [AuthHeaderValue.parse, parseCore_complete v hq, n1, n2, n3, n4, n5]

/-- Witness for the amended C6 at the concrete header value of the test suite. -/
theorem to_text_parse_roundtrip_witness :
    AuthHeaderValue.parse
        (some (AuthHeaderValue.to_text ⟨"FAKE_ID", "42", "FAKE_NONCE", "FAKE_EXT", "FAKE_MAC"⟩)) =
      .ok ⟨"FAKE_ID", "42", "FAKE_NONCE", "FAKE_EXT", "FAKE_MAC"⟩ :=
  to_text_parse_roundtrip ⟨"FAKE_ID", "42", "FAKE_NONCE", "FAKE_EXT", "FAKE_MAC"⟩
    ⟨by decide, by decide, by decide, by decide, by decide⟩
    ⟨by decide, by decide, by decide, by decide, by decide⟩

/-! ## Normalized request string -/

/-- Modelled from the spec (section 4.3): `build_normalized_request_string(ts,
nonce, http_method, host, port, request_path_and_query, ext)` of `lcp/mac.py`
(absent from `src/`): the seven signable fields, one per line in the fixed
protocol order (timestamp, nonce, method, request path+query, host, port,
ext), each line terminated by a newline.  Note the output order differs from
the argument order: path+query precedes host and port. -/
def build_normalized_request_string (ts nonce http_method host : String) (port : Nat)
    (request_path_and_query ext : String) : String :=
  ts ++ "\n" ++ nonce ++ "\n" ++ http_method ++ "\n" ++ request_path_and_query ++ "\n" ++
    host ++ "\n" ++ toString port ++ "\n" ++ ext ++ "\n"

/-- Claim C3: the normalized request string is exactly the newline-terminated
lines timestamp, nonce, method, path+query, host, port, ext in that fixed
order; on the RFC fixture from the test suite it equals the eight-line
literal ending in `a,b,c` followed by a newline (the line decomposition of
the fixture output is also checked explicitly). -/
theorem build_normalized_request_string_layout :
    (∀ (ts nonce http_method host : String) (port : Nat)
        (request_path_and_query ext : String),
      build_normalized_request_string ts nonce http_method host port
          request_path_and_query ext =
        ts ++ "\n" ++ nonce ++ "\n" ++ http_method ++ "\n" ++ request_path_and_query ++
          "\n" ++ host ++ "\n" ++ toString port ++ "\n" ++ ext ++ "\n") ∧
    build_normalized_request_string "264095" "7d8f3e4a" "POST" "example.com" 80
        "/request?b5=%3D%253D&a3=a&c%40=&a2=r%20b&c2&a3=2+q" "a,b,c" =
      "264095\n7d8f3e4a\nPOST\n/request?b5=%3D%253D&a3=a&c%40=&a2=r%20b&c2&a3=2+q\nexample.com\n80\na,b,c\n" ∧
    (build_normalized_request_string "264095" "7d8f3e4a" "POST" "example.com" 80
        "/request?b5=%3D%253D&a3=a&c%40=&a2=r%20b&c2&a3=2+q" "a,b,c").data.splitOn '\n' =
      ["264095".data, "7d8f3e4a".data, "POST".data,
        "/request?b5=%3D%253D&a3=a&c%40=&a2=r%20b&c2&a3=2+q".data, "example.com".data,
        "80".data, "a,b,c".data, []] :=
  ⟨fun _ _ _ _ _ _ _ => rfl, rfl, by decide⟩

/-! ## Timestamp validation -/

/-- The clock-skew tolerance in seconds (the `max_skew` of spec section 4.5 as a
configuration constant). -/
def TIMESTAMP_MAX_SECONDS : Int := 30

/-- Severity of an emitted log event. -/
inductive LogLevel where
  | info
  | warning
deriving DecidableEq, Repr

/-- One emitted log event: severity, format string, and the numeric argument
interpolated into it. -/
structure LogEvent where
  level : LogLevel
  fmt : String
  arg : Int
deriving DecidableEq, Repr

/-- A timestamp argument: an integer or its decimal-string form (spec
section 4.5). -/
inductive TsValue where
  | int (i : Int)
  | str (s : String)

/-- Accumulate the value of a decimal digit run; fails on a non-digit. -/
def digitsVal (acc : Nat) : List Char → Option Nat
  | [] => some acc
  | c :: rest =>
      if '0' ≤ c ∧ c ≤ '9' then digitsVal (acc * 10 + (c.toNat - '0'.toNat)) rest
      else none

/-- Python `int()` on a decimal string: an optional sign followed by at
least one digit; anything else raises `ValueError`. -/
def pyInt? (s : String) : Option Int :=
  match s.data with
  | [] => none
  | '-' :: rest =>
      match rest with
      | [] => none
      | _ => (digitsVal 0 rest).map fun n => -(n : Int)
  | '+' :: rest =>
      match rest with
      | [] => none
      | _ => (digitsVal 0 rest).map fun n => (n : Int)
  | l => (digitsVal 0 l).map fun n => (n : Int)

/-- Python `int(ts)` applied to the timestamp argument. -/
def tsToInt : TsValue → Option Int
  | .int i => some i
  | .str s => pyInt? s

/-- Modelled from the spec (section 4.5): `verify_timestamp(ts)` of
`lcp/mac.py` (absent from `src/`).  With `delta = int(ts) - now`: accepted
silently when `-max_skew ≤ delta ≤ 0`; accepted with an informational log
when `0 < delta ≤ max_skew`; rejected with `InvalidTimeStamp` and a warning
log outside the window.  The logged magnitude in both warning branches is the
absolute raw delta (for the past branch, `-delta`), as pinned by
`test_rejects_and_logs_timestamp_too_old`. -/
def verify_timestamp (now : Int) (ts : TsValue) : Except MacError Unit × List LogEvent :=
  match tsToInt ts with
  | none => (.error .valueError, [])
  | some t =>
      let delta := t - now
      if delta > TIMESTAMP_MAX_SECONDS then
        (.error .invalidTimeStamp,
          [⟨.warning, "Rejecting timestamp %ss in the future.", delta⟩])
      else if delta < -TIMESTAMP_MAX_SECONDS then
        (.error .invalidTimeStamp,
          [⟨.warning, "Rejecting timestamp %ss in the past.", -delta⟩])
      else if delta > 0 then
        (.ok (), [⟨.info, "Accepting timestamp %ss in the future.", delta⟩])
      else (.ok (), [])

/-- Claim C4: `verify_timestamp` on an integer or decimal-string timestamp
accepts `delta = -1` silently, accepts `delta = TIMESTAMP_MAX_SECONDS` with an
informational log, and rejects both `delta = TIMESTAMP_MAX_SECONDS + 1` and
`delta = -(TIMESTAMP_MAX_SECONDS + 1)` with `InvalidTimeStamp` and a warning
log. -/
theorem verify_timestamp_policy (now : Int) (ts : TsValue) (t : Int)
    (h : tsToInt ts = some t) :
    (t - now = -1 → verify_timestamp now ts = (.ok (), [])) ∧
    (t - now = TIMESTAMP_MAX_SECONDS →
      verify_timestamp now ts =
        (.ok (), [⟨.info, "Accepting timestamp %ss in the future.", TIMESTAMP_MAX_SECONDS⟩])) ∧
    (t - now = TIMESTAMP_MAX_SECONDS + 1 →
      verify_timestamp now ts =
        (.error .invalidTimeStamp,
          [⟨.warning, "Rejecting timestamp %ss in the future.", TIMESTAMP_MAX_SECONDS + 1⟩])) ∧
    (t - now = -(TIMESTAMP_MAX_SECONDS + 1) →
      verify_timestamp now ts =
        (.error .invalidTimeStamp,
          [⟨.warning, "Rejecting timestamp %ss in the past.", TIMESTAMP_MAX_SECONDS + 1⟩])) := by
  have heval : verify_timestamp now ts =
      (if t - now > TIMESTAMP_MAX_SECONDS then
        (.error .invalidTimeStamp,
          [⟨.warning, "Rejecting timestamp %ss in the future.", t - now⟩])
      else if t - now < -TIMESTAMP_MAX_SECONDS then
        (.error .invalidTimeStamp,
          [⟨.warning, "Rejecting timestamp %ss in the past.", -(t - now)⟩])
      else if t - now > 0 then
        (.ok (), [⟨.info, "Accepting timestamp %ss in the future.", t - now⟩])
      else (.ok (), [])) := by
    unfold verify_timestamp
    rw [h]
  refine ⟨?_, ?_, ?_, ?_⟩ <;> intro hd <;> rw [heval, hd] <;>
    norm_num [TIMESTAMP_MAX_SECONDS]

/-- Witness for C4: the decimal-string timestamp `"-1"` against `now = 0` is
accepted silently. -/
theorem verify_timestamp_policy_witness :
    ((-1 : Int) - 0 = -1 → verify_timestamp 0 (.str "-1") = (.ok (), [])) ∧
    ((-1 : Int) - 0 = TIMESTAMP_MAX_SECONDS →
      verify_timestamp 0 (.str "-1") =
        (.ok (), [⟨.info, "Accepting timestamp %ss in the future.", TIMESTAMP_MAX_SECONDS⟩])) ∧
    ((-1 : Int) - 0 = TIMESTAMP_MAX_SECONDS + 1 →
      verify_timestamp 0 (.str "-1") =
        (.error .invalidTimeStamp,
          [⟨.warning, "Rejecting timestamp %ss in the future.", TIMESTAMP_MAX_SECONDS + 1⟩])) ∧
    ((-1 : Int) - 0 = -(TIMESTAMP_MAX_SECONDS + 1) →
      verify_timestamp 0 (.str "-1") =
        (.error .invalidTimeStamp,
          [⟨.warning, "Rejecting timestamp %ss in the past.", TIMESTAMP_MAX_SECONDS + 1⟩])) :=
  verify_timestamp_policy 0 (.str "-1") (-1) (by decide)

/-- Claim C5, counterexample: at `now = 0` and timestamp `-31` (so `delta = -31`
with `max_skew = 30`), the logged warning magnitude is `31`, the raw absolute
delta — not the overshoot past the tolerance window `|delta| - max_skew = 1`
the claim describes. -/
theorem past_rejection_log_counterexample :
    ((verify_timestamp 0 (.int (-31))).2.map LogEvent.arg = [31] ∧
      ((-31 : Int) - 0).natAbs - TIMESTAMP_MAX_SECONDS.natAbs = 1) ∧
      ¬ ((verify_timestamp 0 (.int (-31))).2.map LogEvent.arg =
          [((((-31 : Int) - 0).natAbs : Int)) - TIMESTAMP_MAX_SECONDS]) := by
  decide

/-- Claim C5, amended: when `verify_timestamp` rejects a timestamp with
`delta < -max_skew`, the magnitude it logs in the warning message is the raw
absolute delta `-delta` (equivalently `|delta|`), not the overshoot past the
tolerance window. -/
theorem past_rejection_logs_raw_delta (now t : Int) (h : t - now < -TIMESTAMP_MAX_SECONDS) :
    verify_timestamp now (.int t) =
      (.error .invalidTimeStamp,
        [⟨.warning, "Rejecting timestamp %ss in the past.", -(t - now)⟩]) := by
  unfold verify_timestamp tsToInt
  have h2 : ¬ (t - now > TIMESTAMP_MAX_SECONDS) := by
    unfold TIMESTAMP_MAX_SECONDS at h ⊢
    omega
  simp only [h2, if_false, if_pos h]

/-- Witness for the amended C5 at the concrete rejection input of the test suite. -/
theorem past_rejection_logs_raw_delta_witness :
    (-31 : Int) - 0 < -TIMESTAMP_MAX_SECONDS ∧
      verify_timestamp 0 (.int (-31)) =
        (.error .invalidTimeStamp,
          [⟨.warning, "Rejecting timestamp %ss in the past.", -((-31 : Int) - 0)⟩]) :=
  ⟨by decide, past_rejection_logs_raw_delta 0 (-31) (by decide)⟩

/-! ## Ext digest -/

/-- Modelled from the spec (section 4.2): `generate_ext(content_type, body)`
of `lcp/mac.py` (absent from `src/`).  The hash provider
(`hashlib.sha1(...).hexdigest()`, the lowercase-hex SHA-1 digest) is an
external capability passed in as `sha1_hexdigest`, exactly as the test of the repo mocks `hashlib.sha1`.  If either input is absent (`None`) or empty the
result is the empty string; otherwise it is the digest of the literal
concatenation `content_type + body`. -/
def generate_ext (sha1_hexdigest : String → String)
    (content_type body : Option String) : String :=
  match content_type, body with
  | some ct, some b =>
      if ct.length > 0 ∧ b.length > 0 then sha1_hexdigest (ct ++ b) else ""
  | _, _ => ""

/-- Claim C8: whenever either argument of `generate_ext` is absent or the empty
string, the result is the empty string. -/
theorem generate_ext_empty (sha1_hexdigest : String → String)
    (content_type body : Option String)
    (h : content_type = none ∨ content_type = some "" ∨ body = none ∨ body = some "") :
    generate_ext sha1_hexdigest content_type body = "" := by
  match content_type, body with
  | none, _ => rfl
  | some ct, none => rfl
  | some ct, some b =>
      rcases h with h | h | h | h
      · cases h
      · rw [Option.some_inj.mp h]
        simp [generate_ext]
      · cases h
      · rw [Option.some_inj.mp h]
        simp [generate_ext]

/-- Witness for C8 at the concrete test-suite inputs (`content_type`
present, `body` absent). -/
theorem generate_ext_empty_witness :
    ((some "dave was here" : Option String) = none ∨
        (some "dave was here" : Option String) = some "" ∨ (none : Option String) = none ∨
        (none : Option String) = some "") ∧
      generate_ext (fun _ => "deadbeef") (some "dave was here") none = "" :=
  ⟨by simp, generate_ext_empty (fun _ => "deadbeef") (some "dave was here") none (by simp)⟩

/-- Claim C9: for non-empty `content_type` and `body`, `generate_ext` is the
lowercase-hex SHA-1 digest of the hash provider applied to the literal
concatenation `content_type ++ body`, with no separator; being a function of
that concatenation, it is deterministic in its two inputs. -/
theorem generate_ext_concat (sha1_hexdigest : String → String)
    (content_type body : String) (hct : content_type ≠ "") (hb : body ≠ "") :
    generate_ext sha1_hexdigest (some content_type) (some body) =
      sha1_hexdigest (content_type ++ body) := by
  have h1 : content_type.length > 0 := by
    cases hl : content_type.data with
    | nil => exact absurd (string_eq_of_data content_type "" hl) hct
    | cons c rest => simp [String.length, hl]
  have h2 : body.length > 0 := by
    cases hl : body.data with
    | nil => exact absurd (string_eq_of_data body "" hl) hb
    | cons c rest => simp [String.length, hl]
  simp [generate_ext, h1, h2]

/-- Witness for C9 at the concrete test-suite inputs: the digest input is
exactly the separator-free concatenation. -/
theorem generate_ext_concat_witness :
    ("hello world!" : String) ≠ "" ∧ ("dave was here" : String) ≠ "" ∧
      generate_ext (fun s => "sha1:" ++ s) (some "hello world!") (some "dave was here") =
        (fun s => "sha1:" ++ s) ("hello world!" ++ "dave was here") :=
  ⟨by decide, by decide,
    generate_ext_concat (fun s => "sha1:" ++ s) "hello world!" "dave was here" (by decide)
      (by decide)⟩

/-! ## Orchestrator: header generation -/

/-- Split the authority from the request-target at the first `/`. -/
def splitAuthority : List Char → List Char × List Char
  | [] => ([], [])
  | c :: rest =>
      if c = '/' then ([], c :: rest)
      else
        let (a, p) := splitAuthority rest
        (c :: a, p)

/-- Split a URL at the first `://` into scheme and remainder. -/
def splitScheme : List Char → Option (List Char × List Char)
  | [] => none
  | ':' :: '/' :: '/' :: rest => some ([], rest)
  | c :: rest =>
      match splitScheme rest with
      | some (s, r) => some (c :: s, r)
      | none => none

/-- Split an authority at its first `:` into host and optional port text. -/
def splitColon : List Char → List Char × Option (List Char)
  | [] => ([], none)
  | c :: rest =>
      if c = ':' then ([], some rest)
      else
        let (h, p) := splitColon rest
        (c :: h, p)

/-- ASCII lowercasing of one character, as `urlparse` applies to the host. -/
def asciiLower (c : Char) : Char :=
  if 'A' ≤ c ∧ c ≤ 'Z' then Char.ofNat (c.toNat + 32) else c

/-- The decomposed pieces of a URL that header generation needs. -/
structure UrlParts where
  scheme : String
  host : String
  port : Nat
  pathAndQuery : String
deriving Repr

/-- The default port for a scheme when the authority names none (spec
section 4.7: "default per scheme if absent"). -/
def defaultPort (scheme : String) : Nat :=
  if scheme = "https" then 443 else 80

/-- Modelled from the spec (section 4.7): the `urlparse`-based decomposition
of the URL into lowercase host, port and request-target used by
`generate_authorization_header_value`. -/
def parseUrl (url : String) : UrlParts :=
  match splitScheme url.data with
  | none => ⟨"", "", 80, url⟩
  | some (schemeChars, rest) =>
      let scheme := String.mk schemeChars
      let (authority, path) := splitAuthority rest
      match splitColon authority with
      | (h, some p) =>
          ⟨scheme, String.mk (h.map asciiLower), (digitsVal 0 p).getD (defaultPort scheme),
            String.mk path⟩
      | (h, none) =>
          ⟨scheme, String.mk (h.map asciiLower), defaultPort scheme, String.mk path⟩

/-- The injected external capabilities of header generation: the clock, the
nonce source, the ext-digest provider and the signature provider (spec
section 9 models these as minimal injected interfaces, exactly as the test
substitutes them). -/
structure HeaderDeps where
  now : Int
  nonce : String
  ext : Option String → Option String → String
  sign : String → String → String

/-- Modelled from the spec (section 4.7): `generate_authorization_header_value
(http_method, url, mac_key_identifier, mac_key, content_type, body)` of
`lcp/mac.py` (absent from `src/`): capture the timestamp, obtain a nonce,
compute the ext digest, decompose the URL, build the normalized string, sign
it, and serialize the resulting `AuthHeaderValue`. -/
def generate_authorization_header_value (deps : HeaderDeps)
    (http_method url mac_key_identifier mac_key : String)
    (content_type body : Option String) : String :=
  let u := parseUrl url
  let ts := toString deps.now
  let nonce := deps.nonce
  let ext := deps.ext content_type body
  let normalized_request_string :=
    build_normalized_request_string ts nonce http_method u.host u.port u.pathAndQuery ext
  let signature := deps.sign mac_key normalized_request_string
  AuthHeaderValue.to_text ⟨mac_key_identifier, ts, nonce, ext, signature⟩

/-- Claim C7: with the clock fixed at `42`, the nonce source fixed at `"NONCE"`,
the ext provider fixed at `"EXT"` and the signer fixed at `"SIGNATURE"`,
`generate_authorization_header_value("METHOD", "http://HOST:8008/PATH",
"KEY_ID", "SECRET", "CONTENT_TYPE", "BODY")` returns exactly
`MAC id="KEY_ID", ts="42", nonce="NONCE", ext="EXT", mac="SIGNATURE"`. -/
theorem generate_header_fixture :
    generate_authorization_header_value
        ⟨42, "NONCE", fun _ _ => "EXT", fun _ _ => "SIGNATURE"⟩
        "METHOD" "http://HOST:8008/PATH" "KEY_ID" "SECRET" (some "CONTENT_TYPE")
        (some "BODY") =
      "MAC id=\"KEY_ID\", ts=\"42\", nonce=\"NONCE\", ext=\"EXT\", mac=\"SIGNATURE\"" := by
  rfl

/-! ## `pylcp/crud/postings.py`: `Credit._create_payload`

This module is present under `src/` and is embedded directly.  A Python dict
is an insertion-ordered association list with unique keys; `d[k] = v`
replaces the value in place when `k` is present and appends otherwise, and
`d.update(kvs)` performs `d[k] = v` for each entry of `kvs`. -/

/-- Assignment `d[k] = v` on a Python dict. -/
def dictSet {α : Type} : List (String × α) → String → α → List (String × α)
  | [], k, v => [(k, v)]
  | kv :: rest, k, v =>
      if kv.1 = k then (k, v) :: rest else kv :: dictSet rest k v

/-- Merge `d.update(kvs)` on a Python dict. -/
def dictUpdate {α : Type} (d : List (String × α)) (kvs : List (String × α)) :
    List (String × α) :=
  kvs.foldl (fun acc kv => dictSet acc kv.1 kv.2) d

/-- Lookup `d.get(k)` on a Python dict. -/
def dictGet? {α : Type} (d : List (String × α)) (k : String) : Option α :=
  (d.find? fun kv => kv.1 = k).map fun kv => kv.2

/-- The body of `Credit._create_payload(self, amount, member_validation,
pic=None, **kwargs)` (`src/pylcp/crud/postings.py`, lines 13-22): start from
`amount` and `memberValidation`, add `pic` only when it is not `None`, then
merge `kwargs` last. -/
def create_payload {α : Type} (amount member_validation : α) (pic : Option α)
    (kwargs : List (String × α)) : List (String × α) :=
  let payload := [("amount", amount), ("memberValidation", member_validation)]
  let payload :=
    match pic with
    | some v => dictSet payload "pic" v
    | none => payload
  dictUpdate payload kwargs

/-- A call `self._create_payload(amount, member_validation, pic, **kwargs)`
(as `Credit.create` performs it, `src/pylcp/crud/postings.py` line 9) under
CPython keyword-binding: since `amount`, `member_validation` and `pic` are
already bound positionally, a `kwargs` key equal to any of these parameter
names raises `TypeError: got multiple values for argument`; otherwise the
body runs. -/
def create_payload_call {α : Type} (amount member_validation : α) (pic : Option α)
    (kwargs : List (String × α)) : Except MacError (List (String × α)) :=
  if kwargs.any fun kv => kv.1 = "amount" ∨ kv.1 = "member_validation" ∨ kv.1 = "pic"
  then .error .typeError
  else .ok (create_payload amount member_validation pic kwargs)

lemma dictGet?_dictSet_self {α : Type} (d : List (String × α)) (k : String) (v : α) :
    dictGet? (dictSet d k v) k = some v := by
  induction d with
  | nil => simp [dictSet, dictGet?, List.find?]
  | cons kv rest ih =>
      by_cases hk : kv.1 = k
      · simp [dictSet, hk, dictGet?, List.find?]
      · simpa [dictSet, hk, dictGet?, List.find?] using ih

lemma dictGet?_dictSet_ne {α : Type} (d : List (String × α)) (k k2 : String) (v : α)
    (h : k ≠ k2) : dictGet? (dictSet d k2 v) k = dictGet? d k := by
  have hks : k2 ≠ k := Ne.symm h
  induction d with
  | nil => simp [dictSet, dictGet?, List.find?, hks]
  | cons kv rest ih =>
      by_cases hk : kv.1 = k2
      · simp [dictSet, hk, dictGet?, List.find?, hks]
      · by_cases hk2 : kv.1 = k
        · simp [dictSet, hk, dictGet?, List.find?, hk2, h]
        · simpa [dictSet, hk, dictGet?, List.find?, hk2] using ih

lemma dictGet?_dictUpdate_not_mem {α : Type} (kvs d : List (String × α)) (k : String)
    (h : k ∉ kvs.map Prod.fst) : dictGet? (dictUpdate d kvs) k = dictGet? d k := by
  induction kvs generalizing d with
  | nil => rfl
  | cons kv rest ih =>
      have hk : k ≠ kv.1 := by
        intro hq
        exact h (by simp [hq])
      have hrest : k ∉ rest.map Prod.fst := by
        intro hq
        exact h (by simp [hq])
      show dictGet? (dictUpdate (dictSet d kv.1 kv.2) rest) k = dictGet? d k
      rw [ih (dictSet d kv.1 kv.2) hrest, dictGet?_dictSet_ne d k kv.1 kv.2 hk]

lemma dictGet?_dictUpdate_mem {α : Type} (kvs d : List (String × α)) (k : String) (w : α)
    (hnd : (kvs.map Prod.fst).Nodup) (hmem : (k, w) ∈ kvs) :
    dictGet? (dictUpdate d kvs) k = some w := by
  induction kvs generalizing d with
  | nil => cases hmem
  | cons kv rest ih =>
      rcases List.mem_cons.mp hmem with heq | hrest
      · have hk : kv = (k, w) := heq.symm
        subst hk
        have hnot : k ∉ rest.map Prod.fst := by
          have := hnd
          simp only [List.map_cons, List.nodup_cons] at this
          exact this.1
        show dictGet? (dictUpdate (dictSet d k w) rest) k = some w
        rw [dictGet?_dictUpdate_not_mem rest (dictSet d k w) k hnot,
          dictGet?_dictSet_self]
      · have hnd2 : (rest.map Prod.fst).Nodup := by
          simp only [List.map_cons, List.nodup_cons] at hnd
          exact hnd.2
        exact ih (dictSet d kv.1 kv.2) hnd2 hrest

/-- Claim C10, counterexample: a call of `_create_payload` that supplies a
keyword argument named `amount` (alongside the positional `amount`) raises
`TypeError` under CPython keyword binding — `amount` is a bound parameter
name — rather than silently overriding the positional value as the claim
states. -/
theorem create_payload_amount_kwarg_counterexample :
    create_payload_call (1 : Int) 2 none [("amount", 3)] = .error .typeError := rfl

/-- Claim C10, amended: for every well-formed call of
`Credit._create_payload(amount, member_validation, pic, **kwargs)` — kwargs
keys are distinct and, by CPython binding, cannot equal the parameter names
`amount`, `member_validation`, `pic` — the call succeeds and the payload
contains `pic` iff `pic` is not `None`; `amount` always maps to the
positional value; a kwargs entry named `memberValidation` (which is not a
parameter name) silently overrides the positional `member_validation`, which
is otherwise used; and any call whose kwargs contain a key named `amount`
raises `TypeError` instead of overriding. -/
theorem create_payload_characterization {α : Type} (amount member_validation : α)
    (pic : Option α) (kwargs : List (String × α))
    (hvalid : ∀ kv ∈ kwargs, kv.1 ≠ "amount" ∧ kv.1 ≠ "member_validation" ∧ kv.1 ≠ "pic")
    (hnd : (kwargs.map Prod.fst).Nodup) :
    create_payload_call amount member_validation pic kwargs =
      .ok (create_payload amount member_validation pic kwargs) ∧
    ((dictGet? (create_payload amount member_validation pic kwargs) "pic").isSome ↔
      pic.isSome) ∧
    dictGet? (create_payload amount member_validation pic kwargs) "amount" = some amount ∧
    (∀ w, ("memberValidation", w) ∈ kwargs →
      dictGet? (create_payload amount member_validation pic kwargs) "memberValidation" =
        some w) ∧
    ("memberValidation" ∉ kwargs.map Prod.fst →
      dictGet? (create_payload amount member_validation pic kwargs) "memberValidation" =
        some member_validation) ∧
    (∀ kwargs2 : List (String × α), (∃ w, ("amount", w) ∈ kwargs2) →
      create_payload_call amount member_validation pic kwargs2 = .error .typeError) := by
  have hpic : "pic" ∉ kwargs.map Prod.fst := by
    intro hm
    obtain ⟨kv, hkv, heq⟩ := List.mem_map.mp hm
    exact (hvalid kv hkv).2.2 heq
  have hamount : "amount" ∉ kwargs.map Prod.fst := by
    intro hm
    obtain ⟨kv, hkv, heq⟩ := List.mem_map.mp hm
    exact (hvalid kv hkv).1 heq
  have hne1 : ("amount" : String) ≠ "pic" := by decide
  have hne2 : ("memberValidation" : String) ≠ "pic" := by decide
  have hne3 : ("amount" : String) ≠ "memberValidation" := by decide
  refine ⟨?_, ?_, ?_, ?_, ?_, ?_⟩
  · rw [create_payload_call, if_neg]
    intro hany
    simp only [List.any_eq_true] at hany
    obtain ⟨kv, hkv, hor⟩ := hany
    obtain ⟨q1, q2, q3⟩ := hvalid kv hkv
    simp only [decide_eq_true_eq] at hor
    rcases hor with h | h | h
    · exact q1 h
    · exact q2 h
    · exact q3 h
  · simp only [create_payload]
    rw [dictGet?_dictUpdate_not_mem kwargs _ "pic" hpic]
    cases pic with
    | none => simp [dictGet?, List.find?, Ne.symm hne1, Ne.symm hne2]
    | some v => simp [dictGet?_dictSet_self]
  · simp only [create_payload]
    rw [dictGet?_dictUpdate_not_mem kwargs _ "amount" hamount]
    cases pic with
    | none => simp [dictGet?, List.find?]
    | some v =>
        rw [dictGet?_dictSet_ne _ _ _ _ hne1]
        simp [dictGet?, List.find?]
  · intro w hw
    simp only [create_payload]
    exact dictGet?_dictUpdate_mem kwargs _ "memberValidation" w hnd hw
  · intro hmv
    simp only [create_payload]
    rw [dictGet?_dictUpdate_not_mem kwargs _ "memberValidation" hmv]
    cases pic with
    | none => simp [dictGet?, List.find?, hne3]
    | some v =>
        rw [dictGet?_dictSet_ne _ _ _ _ hne2]
        simp [dictGet?, List.find?, hne3]
  · intro kwargs2 hex
    obtain ⟨w, hw⟩ := hex
    rw [create_payload_call, if_pos]
    simp only [List.any_eq_true]
    refine ⟨("amount", w), hw, ?_⟩
    simp

/-- Witness for the amended C10 at a concrete call with `pic` supplied and a
`memberValidation` kwargs override. -/
theorem create_payload_characterization_witness :
    create_payload_call (1 : Int) 2 (some 3) [("memberValidation", 9), ("x", 5)] =
        .ok (create_payload (1 : Int) 2 (some 3) [("memberValidation", 9), ("x", 5)]) ∧
      ((dictGet? (create_payload (1 : Int) 2 (some 3) [("memberValidation", 9), ("x", 5)])
            "pic").isSome ↔ (some (3 : Int)).isSome) ∧
      dictGet? (create_payload (1 : Int) 2 (some 3) [("memberValidation", 9), ("x", 5)])
          "amount" = some 1 ∧
      (∀ w, ("memberValidation", w) ∈ [(("memberValidation" : String), (9 : Int)), ("x", 5)] →
        dictGet? (create_payload (1 : Int) 2 (some 3) [("memberValidation", 9), ("x", 5)])
            "memberValidation" = some w) ∧
      ("memberValidation" ∉ [(("memberValidation" : String), (9 : Int)), ("x", 5)].map
          Prod.fst →
        dictGet? (create_payload (1 : Int) 2 (some 3) [("memberValidation", 9), ("x", 5)])
            "memberValidation" = some 2) ∧
      (∀ kwargs2 : List (String × Int), (∃ w, ("amount", w) ∈ kwargs2) →
        create_payload_call (1 : Int) 2 (some 3) kwargs2 = .error .typeError) :=
  create_payload_characterization 1 2 (some 3) [("memberValidation", 9), ("x", 5)]
    (by decide) (by decide)
